import Mathlib

/-!
Verification of the zkBitcoin CLI (`src/bin/zkbtc.rs`) against its
natural-language specification.

The file shallowly embeds the command handlers of `zkbtc.rs`:
- the `DeployZkapp` public-input sanity checks (lines 182-212),
- the `GenerateCommittee` even-parity dealing loop and artifact writing
  (lines 297-358),
- the `StartOrchestrator` startup assertion (lines 387-417),
and, where the spec describes committee-member behaviour whose code is not
part of this crate's sources, models it from the spec (`beginSession` /
`sign` of the committee member service, §4.2 of the spec).

Machine integers are modelled as `Nat` with explicit reduction modulo
`2 ^ 64` exactly where the Rust code can wrap (`vk.nPublic - 3` on a
`usize` in release mode).  Fallible paths are explicit: `ensure!`
failures become `.err` values, `assert!` / `assert_eq!` / `unwrap`
failures become `.panic` values.
-/

namespace ZkBitcoin

/-! ### DeployZkapp: public-input validation (zkbtc.rs lines 182-212) -/

/-- Outcome of the `DeployZkapp` sanity checks: the handler either proceeds
(`ok`), aborts with a clean `anyhow` error produced by `ensure!`/`?`
(`err`), or panics via `assert_eq!` (or, in a debug build, via checked
subtraction) (`panic`). -/
inductive DeployOutcome where
  | ok : DeployOutcome
  | err : String → DeployOutcome
  | panic : String → DeployOutcome
deriving DecidableEq, Repr

/-- `usize` modulus on a 64-bit target. -/
def U64_MOD : Nat := 2 ^ 64

/-- Rust's `Nat.checked_div`: `None` exactly when the divisor is zero. -/
def checked_div (a b : Nat) : Option Nat :=
  if b = 0 then none else some (a / b)

/-- The sanity checks of `Commands::DeployZkapp` (zkbtc.rs lines 182-212),
as a function of the verifying key's declared number of public inputs
`nPublic` and the optional `initial_state` CLI argument.

Mirrors the source order:
1. `ensure!(num_public_inputs > 0, ...)`;
2. if `num_public_inputs > 1`:
   `double_state_len = vk.nPublic - 3` (wrapping subtraction on `usize`
   in release mode), `state_len = double_state_len.checked_div(2)` with
   `.context("the VK")?` (dead: the divisor 2 is nonzero),
   `assert_eq!(state_len * 2, double_state_len)`,
   `ensure!(state_len == 1, ...)`,
   `ensure!(num_public_inputs == 3 + state_len * 2, ...)`,
   `ensure!(initial_state.is_some(), ...)`. -/
def validateDeploy (nPublic : Nat) (initial_state : Option String) : DeployOutcome :=
  if 0 < nPublic then
    if 1 < nPublic then
      let double_state_len := (nPublic + (U64_MOD - 3)) % U64_MOD
      match checked_div double_state_len 2 with
      | none => .err "the VK"
      | some state_len =>
        if state_len * 2 = double_state_len then
          if state_len = 1 then
            if nPublic = 3 + state_len * 2 then
              if initial_state.isSome then .ok
              else .err "an initial state should be passed for a stateful zkapp"
            else .err "the circuit passed does not expect the right number of public inputs for a stateful zkapp"
          else .err "we only allow states of a single field element"
        else .panic "assertion failed: state_len * 2 == double_state_len"
    else .ok
  else .err "the circuit must have at least one public input (the txid)"

/-- The `DeployZkapp` handler around the checks: the deploy transaction is
generated and broadcast (`generate_and_broadcast_transaction`,
zkbtc.rs line 215) only when every sanity check passed.  The boolean
records whether broadcasting is reached. -/
def deployZkapp (nPublic : Nat) (initial_state : Option String) :
    DeployOutcome × Bool :=
  match validateDeploy nPublic initial_state with
  | .ok => (.ok, true)
  | r => (r, false)

/-- `true` exactly on the clean `ensure!`-style rejection. -/
def DeployOutcome.isCleanErr : DeployOutcome → Bool
  | .err _ => true
  | _ => false

example : validateDeploy 1 none = .ok := by decide
example : validateDeploy 5 (some "0") = .ok := by decide
example : validateDeploy 5 none =
    .err "an initial state should be passed for a stateful zkapp" := by decide
example : validateDeploy 0 none =
    .err "the circuit must have at least one public input (the txid)" := by decide
example : validateDeploy 2 none =
    .panic "assertion failed: state_len * 2 == double_state_len" := by decide
example : validateDeploy 3 none =
    .err "we only allow states of a single field element" := by decide
example : validateDeploy 4 none =
    .panic "assertion failed: state_len * 2 == double_state_len" := by decide
example : validateDeploy 7 (some "0") =
    .err "we only allow states of a single field element" := by decide

/-! ### GenerateCommittee: the dealing loop (zkbtc.rs lines 297-314) -/

/-- A committee member identifier (`frost::Identifier`). -/
abbrev Identifier := Nat

/-- One member's secret key package (`frost::KeyPackage`); its contents are
opaque to the CLI, which only serializes it. -/
structure KeyPackage where
  data : Nat
deriving DecidableEq, Repr

/-- The group public-key package (`frost::PublicKeyPackage`); the CLI looks
only at the bytes of `pubkey_package.verifying_key().serialize()`
(33 bytes for a compressed secp256k1 point, first byte 2 or 3). -/
structure PublicKeyPackage where
  verifying_key_serialized : List Nat
deriving DecidableEq, Repr

/-- One return value of `frost::gen_frost_keys(num, threshold)`: the map
`Identifier -> KeyPackage` (a `BTreeMap`, modelled as its entry list in
iteration order) together with the public-key package. -/
structure TrialResult where
  key_packages : List (Identifier × KeyPackage)
  pubkey_package : PublicKeyPackage
deriving DecidableEq, Repr

/-- `pubkey.serialize()[0] == 2`: the even-y parity test of the loop at
zkbtc.rs line 309 (`serialize()` of a compressed point is never empty, so
indexing `[0]` is `head?`). -/
def hasEvenParity (pk : PublicKeyPackage) : Bool :=
  pk.verifying_key_serialized.head? = some 2

/-- Outcome of the dealing loop of `Commands::GenerateCommittee`
(zkbtc.rs lines 304-314).  `success` carries the one trial that was
accepted; `panicked` is `gen_frost_keys(..).unwrap()` hitting an `Err`;
`runningOut` means the loop is still iterating after consuming every
modelled trial. -/
inductive DealOutcome where
  | success : TrialResult → DealOutcome
  | panicked : DealOutcome
  | runningOut : DealOutcome
deriving DecidableEq, Repr

/-- The `loop` of zkbtc.rs lines 304-314, parameterized by the stream of
successive `frost::gen_frost_keys` results (each drawn with fresh
randomness).  The code calls `gen_frost_keys(..).unwrap()` once before
the loop and once per failed parity test; both key packages and pubkey
package are replaced together, so the loop is the first-match recursion
below. -/
def dealLoop : List (Except String TrialResult) → DealOutcome
  | [] => .runningOut
  | .error _ :: _ => .panicked
  | .ok tr :: rest =>
    if hasEvenParity tr.pubkey_package then .success tr
    else dealLoop rest

/-! ### GenerateCommittee: artifact writing (zkbtc.rs lines 316-358) -/

/-- `committee::orchestrator::Member`: one entry of the committee map. -/
structure Member where
  address : String
deriving DecidableEq, Repr

/-- `committee::orchestrator::CommitteeConfig`: threshold plus the
member-id -> address map (modelled as its entry list in insertion
order). -/
structure CommitteeConfig where
  threshold : Nat
  members : List (Identifier × Member)
deriving DecidableEq, Repr

/-- The files `Commands::GenerateCommittee` writes once a trial is
accepted: one `key-{id}.json` per key package (id is the enumeration
index), `publickey-package.json`, and `committee-cfg.json`. -/
structure CommitteeArtifacts where
  keyFiles : List (String × KeyPackage)
  pubkeyFile : String × PublicKeyPackage
  cfgFile : String × CommitteeConfig
deriving DecidableEq, Repr

/-- `format!("key-{id}.json")` (zkbtc.rs line 319). -/
def keyFileName (id : Nat) : String := "key-" ++ Nat.repr id ++ ".json"

/-- `format!("{}{}", ip, id)` with `ip = "http://127.0.0.1:889"`
(zkbtc.rs lines 338, 348). -/
def memberAddress (id : Nat) : String := "http://127.0.0.1:889" ++ Nat.repr id

/-- The `committee-cfg.json` contents (zkbtc.rs lines 337-353): threshold
is the CLI argument, members map each key package's `member_id` to
`Member { address: format!("{}{}", ip, id) }` where `id` enumerates the
packages. -/
def mkCommitteeConfig (threshold : Nat)
    (key_packages : List (Identifier × KeyPackage)) : CommitteeConfig :=
  { threshold := threshold
  , members := key_packages.enum.map fun p => (p.2.1, { address := memberAddress p.1 }) }

/-- The writing phase of `Commands::GenerateCommittee`
(zkbtc.rs lines 316-358), applied to the accepted trial. -/
def writeArtifacts (threshold : Nat) (tr : TrialResult) : CommitteeArtifacts :=
  { keyFiles := tr.key_packages.enum.map fun p => (keyFileName p.1, p.2.2)
  , pubkeyFile := ("publickey-package.json", tr.pubkey_package)
  , cfgFile := ("committee-cfg.json", mkCommitteeConfig threshold tr.key_packages) }

/-- Outcome of the whole `GenerateCommittee` command. -/
inductive CeremonyOutcome where
  | ok : CommitteeArtifacts → CeremonyOutcome
  | panicked : CeremonyOutcome
  | runningOut : CeremonyOutcome
deriving DecidableEq, Repr

/-- `Commands::GenerateCommittee` (zkbtc.rs lines 297-358): run the dealing
loop, then write the artifacts of the accepted trial.  Nothing is
written on a panic (the `unwrap` at lines 306/312 precedes every file
write). -/
def generateCommittee (threshold : Nat)
    (trials : List (Except String TrialResult)) : CeremonyOutcome :=
  match dealLoop trials with
  | .success tr => .ok (writeArtifacts threshold tr)
  | .panicked => .panicked
  | .runningOut => .runningOut

/-- File names written by the command: empty unless the loop accepted a
trial (`std::fs::File::create` is only reached after the loop). -/
def filesWritten : CeremonyOutcome → List String
  | .ok arts => arts.keyFiles.map Prod.fst ++ [arts.pubkeyFile.1, arts.cfgFile.1]
  | _ => []

/-! ### StartOrchestrator: startup check (zkbtc.rs lines 387-417) -/

/-- Outcome of `Commands::StartOrchestrator` after loading the committee
config: either `run_server` is reached with that config, or the
`assert!(committee_cfg.threshold > 0)` at line 408 panics. -/
inductive StartupOutcome where
  | runs : CommitteeConfig → StartupOutcome
  | panicked : String → StartupOutcome
deriving DecidableEq, Repr

/-- `Commands::StartOrchestrator` (zkbtc.rs lines 387-417) after the config
files are deserialized: the only sanity check before
`committee::orchestrator::run_server` is `assert!(committee_cfg.threshold > 0)`. -/
def startOrchestrator (committee_cfg : CommitteeConfig) : StartupOutcome :=
  if 0 < committee_cfg.threshold then .runs committee_cfg
  else .panicked "assertion failed: committee_cfg.threshold > 0"

/-! ### CommitteeMemberService sessions (spec §4.2; the service's code lives
in `zkbitcoin::committee::node`, outside this crate's `src/bin` sources,
so it is modelled from the spec) -/

/-- A signing-session identifier. -/
abbrev SessionId := Nat

/-- The message bound to a session (the transaction's signing digest),
opaque here. -/
abbrev Message := Nat

/-- A per-session secret nonce pair, opaque here; freshness is supplied by
the caller of `beginSession` (injected randomness). -/
structure Nonce where
  val : Nat
deriving DecidableEq, Repr

/-- The public commitment derived from a nonce. -/
structure NonceCommitment where
  ofNonce : Nonce
deriving DecidableEq, Repr

/-- Modelled from the spec: "computes the partial signature from the stored
nonce and key share" — a partial signature is a function of the member's
key share, the session's stored nonce, the aggregated commitments and
the message; the record keeps the nonce and message it was computed
over, which is what the nonce-reuse invariant talks about. -/
structure PartialSignature where
  keyShare : Nat
  usedNonce : Nonce
  overMessage : Message
  aggregated : List NonceCommitment
deriving DecidableEq, Repr

/-- The error taxonomy of spec §7 used by the member service. -/
inductive MemberError where
  | SessionAlreadyUsed : MemberError
  | SessionNotFound : MemberError
  | MessageMismatch : MemberError
deriving DecidableEq, Repr

/-- The member service's volatile state: its key share and the open-session
table `sessionId -> (nonce, message)` (spec §4.2), modelled as an
association list. -/
structure MemberState where
  keyShare : Nat
  sessions : List (SessionId × Nonce × Message)
deriving DecidableEq, Repr

/-- Table lookup for a session id. -/
def lookupSession (st : MemberState) (sid : SessionId) : Option (Nonce × Message) :=
  (st.sessions.find? fun e => e.1 = sid).map Prod.snd

/-- Removal of a session entry. -/
def removeSession (st : MemberState) (sid : SessionId) : MemberState :=
  { st with sessions := st.sessions.filter fun e => ¬ e.1 = sid }

/-- Modelled from the spec (§4.2, `CommitteeMemberService.beginSession`):
"generates a fresh random nonce pair, records `sessionId -> (nonce,
message)`, returns the public commitment.  A second call with the same
sessionId is rejected."  The fresh nonce is an explicit argument
(injected randomness). -/
def beginSession (st : MemberState) (sid : SessionId) (msg : Message)
    (freshNonce : Nonce) : Except MemberError (MemberState × NonceCommitment) :=
  match lookupSession st sid with
  | some _ => .error .SessionAlreadyUsed
  | none =>
    .ok ({ st with sessions := (sid, freshNonce, msg) :: st.sessions },
         { ofNonce := freshNonce })

/-- Modelled from the spec (§4.2, `CommitteeMemberService.sign`): "fails
`SessionNotFound` if no open session matches; fails `MessageMismatch` if
`message` differs from the one recorded at `beginSession`; otherwise
computes the partial signature from the stored nonce and key share,
atomically removes the session entry (so a repeated `sign` call for the
same id fails `SessionNotFound`), and returns the share." -/
def memberSign (st : MemberState) (sid : SessionId)
    (aggregatedCommitments : List NonceCommitment) (msg : Message) :
    Except MemberError (MemberState × PartialSignature) :=
  match lookupSession st sid with
  | none => .error .SessionNotFound
  | some (nonce, recorded) =>
    if msg = recorded then
      .ok (removeSession st sid,
           { keyShare := st.keyShare, usedNonce := nonce, overMessage := msg
           , aggregated := aggregatedCommitments })
    else .error .MessageMismatch

/-! ### Decimal formatting is injective

`GenerateCommittee` derives file names and member addresses from decimal
renderings of the enumeration index (`Nat.repr`), so their distinctness
reduces to injectivity of `Nat.repr`, proved here by exhibiting the value a
digit string denotes. -/

/-- The numeric value of a decimal digit character. -/
def digitVal (c : Char) : Nat := c.toNat - 48

/-- The value denoted by a big-endian list of decimal digit characters. -/
def valOfDigits : List Char → Nat
  | [] => 0
  | c :: cs => digitVal c * 10 ^ cs.length + valOfDigits cs

theorem digitVal_digitChar (n : Nat) (h : n < 10) :
    digitVal (Nat.digitChar n) = n := by
  interval_cases n <;> rfl

theorem valOfDigits_toDigitsCore (fuel : Nat) :
    ∀ (n : Nat) (ds : List Char), n < fuel →
      valOfDigits (Nat.toDigitsCore 10 fuel n ds) =
        n * 10 ^ ds.length + valOfDigits ds := by
  induction fuel with
  | zero => intro n ds h; omega
  | succ f ih =>
    intro n ds hn
    simp only [Nat.toDigitsCore]
    by_cases h10 : n / 10 = 0
    · have hmod : n % 10 = n := by omega
      have hlt : n < 10 := by omega
      simp only [h10, if_pos, valOfDigits, List.length_cons, hmod,
        digitVal_digitChar n hlt]
    · rw [if_neg h10]
      have hstep : n / 10 < f := by omega
      rw [ih (n / 10) (Nat.digitChar (n % 10) :: ds) hstep]
      simp only [valOfDigits, List.length_cons,
        digitVal_digitChar (n % 10) (Nat.mod_lt n (by omega))]
      have hsplit : n = 10 * (n / 10) + n % 10 := by omega
      conv_rhs => rw [hsplit]
      ring

theorem valOfDigits_toDigits (n : Nat) :
    valOfDigits (Nat.toDigits 10 n) = n := by
  unfold Nat.toDigits
  rw [valOfDigits_toDigitsCore (n + 1) n [] (Nat.lt_succ_self n)]
  simp [valOfDigits]

theorem natRepr_injective : Function.Injective Nat.repr := by
  intro a b h
  have hd : Nat.toDigits 10 a = Nat.toDigits 10 b :=
    List.asString_inj.mp h
  calc a = valOfDigits (Nat.toDigits 10 a) := (valOfDigits_toDigits a).symm
    _ = valOfDigits (Nat.toDigits 10 b) := by rw [hd]
    _ = b := valOfDigits_toDigits b

theorem memberAddress_injective : Function.Injective memberAddress := by
  intro i j h
  apply natRepr_injective
  have hd := congrArg String.data h
  simp only [memberAddress, String.data_append] at hd
  exact String.ext (List.append_cancel_left hd)

theorem keyFileName_injective : Function.Injective keyFileName := by
  intro i j h
  apply natRepr_injective
  have hd := congrArg String.data h
  simp only [keyFileName, String.data_append] at hd
  have hmid := List.append_cancel_right hd
  exact String.ext (List.append_cancel_left hmid)

/-! ### Characterizing the deploy checks -/

theorem checked_div_two (a : Nat) : checked_div a 2 = some (a / 2) := rfl

/-- The deploy transaction is broadcast exactly when every sanity check
passed. -/
theorem deployZkapp_snd_iff (nPublic : Nat) (is : Option String) :
    (deployZkapp nPublic is).2 = true ↔ validateDeploy nPublic is = .ok := by
  unfold deployZkapp
  cases h : validateDeploy nPublic is <;> simp

/-- The sanity checks pass exactly for a stateless circuit (one public
input) or the single-scalar stateful shape (five public inputs) with an
initial state supplied. -/
theorem validateDeploy_ok_iff (nPublic : Nat) (is : Option String) :
    validateDeploy nPublic is = .ok ↔
      nPublic = 1 ∨ (nPublic = 5 ∧ is.isSome = true) := by
  constructor
  · intro h
    simp only [validateDeploy, checked_div_two] at h
    split_ifs at h with h0 h1 h2 h3 h4 h5
    · right
      refine ⟨?_, h5⟩
      omega
    · left
      omega
  · rintro (rfl | ⟨rfl, hsome⟩)
    · rfl
    · obtain ⟨s, rfl⟩ := Option.isSome_iff_exists.mp hsome
      rfl

/-- C6: a circuit whose verifying key declares zero public inputs makes the
deploy command fail with the "at least one public input" error before any
transaction is generated or broadcast (the broadcast flag is `false`). -/
theorem c6_zero_public_inputs_rejected_before_broadcast (is : Option String) :
    deployZkapp 0 is =
      (.err "the circuit must have at least one public input (the txid)", false) :=
  rfl

/-- C8: with no initial state supplied, a stateful circuit (more than one
declared public input) never reaches broadcasting, the well-shaped
stateful circuit (five public inputs) fails with the dedicated
initial-state error, and an absent initial state is accepted only for a
stateless circuit (exactly one public input). -/
theorem c8_stateful_requires_initial_state (nPublic : Nat) :
    (1 < nPublic → (deployZkapp nPublic none).2 = false) ∧
    ((deployZkapp nPublic none).2 = true → nPublic = 1) ∧
    validateDeploy 5 none =
      .err "an initial state should be passed for a stateful zkapp" := by
  have key : (deployZkapp nPublic none).2 = true → nPublic = 1 := by
    intro h
    rcases (validateDeploy_ok_iff nPublic none).mp
        ((deployZkapp_snd_iff nPublic none).mp h) with h1 | ⟨_, hs⟩
    · exact h1
    · simp at hs
  refine ⟨?_, key, rfl⟩
  intro h1
  cases hb : (deployZkapp nPublic none).2 with
  | false => rfl
  | true => exact absurd (key hb) (by omega)

theorem c8_witness :
    (deployZkapp 7 none).2 = false ∧ (1 : Nat) = 1 :=
  ⟨(c8_stateful_requires_initial_state 7).1 (by norm_num),
   (c8_stateful_requires_initial_state 1).2.1 (by decide)⟩

/-- C4: a stateful deployment attempt (more than one declared public input)
is accepted only for the exact shape `[txid, amount_in, amount_out,
state_in, state_out]` — five public inputs, one state scalar per side —
with an initial state supplied; a circuit whose state would have `k ≥ 2`
elements per side (`3 + 2k` public inputs) is rejected with the
"single field element" error, never approximated. -/
theorem c4_stateful_shape (nPublic : Nat) (is : Option String) (h : 1 < nPublic) :
    ((deployZkapp nPublic is).2 = true ↔ nPublic = 5 ∧ is.isSome = true) ∧
    ∀ k, 2 ≤ k → k < 2 ^ 63 → nPublic = 3 + 2 * k →
      validateDeploy nPublic is =
        .err "we only allow states of a single field element" := by
  constructor
  · rw [deployZkapp_snd_iff, validateDeploy_ok_iff]
    constructor
    · rintro (h1 | h5)
      · omega
      · exact h5
    · intro h5
      exact Or.inr h5
  · rintro k hk2 hklt rfl
    have hd : (3 + 2 * k + (U64_MOD - 3)) % U64_MOD = 2 * k := by
      unfold U64_MOD at *
      omega
    simp only [validateDeploy, checked_div_two, hd]
    rw [if_pos (by omega : 0 < 3 + 2 * k), if_pos (by omega : 1 < 3 + 2 * k),
      if_pos (by omega : 2 * k / 2 * 2 = 2 * k),
      if_neg (by omega : ¬ 2 * k / 2 = 1)]

theorem c4_witness :
    validateDeploy 7 none =
      .err "we only allow states of a single field element" :=
  (c4_stateful_shape 7 none (by norm_num)).2 2 (by norm_num) (by norm_num) (by norm_num)

/-- C9 counterexample: for a circuit with exactly 4 public inputs the deploy
checks do not produce a clean rejection error either — the even-split
`assert_eq!` panics (`state_len = 0`, `double_state_len = 1`), refuting
the claim that 3 and 4 public inputs both yield a clean error. -/
theorem c9_counterexample :
    (validateDeploy 4 (some "0")).isCleanErr = false ∧
    validateDeploy 4 (some "0") =
      .panic "assertion failed: state_len * 2 == double_state_len" := by
  decide

/-- C9 amended: validation proceeds to broadcasting only for exactly 1 or
exactly 5 public inputs; for exactly 2 public inputs the unsigned
`nPublic - 3` wraps, so the command aborts via the even-split assertion
(or, in a debug build, the subtraction's overflow panic) instead of the
clean rejection error produced for 3 public inputs (4 public inputs
likewise abort via the even-split assertion). -/
theorem c9_two_public_inputs_panics (is : Option String) :
    validateDeploy 2 is =
      .panic "assertion failed: state_len * 2 == double_state_len" ∧
    validateDeploy 3 is =
      .err "we only allow states of a single field element" ∧
    validateDeploy 4 is =
      .panic "assertion failed: state_len * 2 == double_state_len" ∧
    ∀ nP is2, (deployZkapp nP is2).2 = true → nP = 1 ∨ nP = 5 := by
  refine ⟨rfl, rfl, rfl, ?_⟩
  intro nP is2 h
  rcases (validateDeploy_ok_iff nP is2).mp ((deployZkapp_snd_iff nP is2).mp h) with
    h1 | ⟨h5, _⟩
  · exact Or.inl h1
  · exact Or.inr h5

theorem c9_witness :
    validateDeploy 2 none =
      .panic "assertion failed: state_len * 2 == double_state_len" ∧
    ((5 : Nat) = 1 ∨ (5 : Nat) = 5) :=
  ⟨(c9_two_public_inputs_panics none).1,
   (c9_two_public_inputs_panics none).2.2.2 5 (some "0") (by decide)⟩

/-! ### The dealing loop: even parity, independent retrial, fatal failure -/

/-- When the dealing loop accepts a trial, that trial's pubkey has even
parity, the trial occurs in the stream, and every earlier trial was a
successful generation whose pubkey lacked even parity (discarded whole
and regenerated, never patched). -/
theorem dealLoop_success_spec (trials : List (Except String TrialResult))
    (tr : TrialResult) (h : dealLoop trials = .success tr) :
    hasEvenParity tr.pubkey_package = true ∧
    ∃ i, i < trials.length ∧ trials[i]? = some (.ok tr) ∧
      ∀ j, j < i → ∀ x, trials[j]? = some x →
        ∃ tr2, x = .ok tr2 ∧ hasEvenParity tr2.pubkey_package = false := by
  induction trials with
  | nil => cases h
  | cons t rest ih =>
    cases t with
    | error e => cases h
    | ok tr0 =>
      by_cases hp : hasEvenParity tr0.pubkey_package = true
      · rw [dealLoop, if_pos hp] at h
        cases h
        refine ⟨hp, 0, by simp, by simp, ?_⟩
        intro j hj
        omega
      · rw [dealLoop, if_neg hp] at h
        obtain ⟨hpar, i, hilen, higet, hbefore⟩ := ih h
        refine ⟨hpar, i + 1, by simpa using hilen, by simpa using higet, ?_⟩
        intro j hj x hx
        cases j with
        | zero =>
          simp only [List.getElem?_cons_zero, Option.some.injEq] at hx
          exact ⟨tr0, hx.symm, by simpa using hp⟩
        | succ j' =>
          rw [List.getElem?_cons_succ] at hx
          exact hbefore j' (by omega) x hx

/-- A failed `gen_frost_keys` reaching the loop makes it panic: the error is
not caught and the remaining randomness is never consulted. -/
theorem dealLoop_error_panics (pre rest : List (Except String TrialResult))
    (e : String)
    (hpre : ∀ x ∈ pre, ∃ tr, x = .ok tr ∧ hasEvenParity tr.pubkey_package = false) :
    dealLoop (pre ++ .error e :: rest) = .panicked := by
  induction pre with
  | nil => rfl
  | cons t pre' ih =>
    obtain ⟨tr0, rfl, hodd⟩ := hpre t (by simp)
    rw [List.cons_append, dealLoop, if_neg (by simp [hodd])]
    exact ih fun x hx => hpre x (by simp [hx])

/-- C1: whenever `GenerateCommittee` terminates successfully, the published
group public key has even-y parity (first serialized byte 2), the written
key files and the published public-key package come from one and the same
accepted trial, and every earlier trial — one whose key lacked even
parity — was discarded whole (key shares and public key together) in
favour of a completely fresh generation. -/
theorem c1_even_parity_same_trial (threshold : Nat)
    (trials : List (Except String TrialResult)) (arts : CommitteeArtifacts)
    (h : generateCommittee threshold trials = .ok arts) :
    ∃ tr, dealLoop trials = .success tr ∧
      arts = writeArtifacts threshold tr ∧
      hasEvenParity tr.pubkey_package = true ∧
      arts.pubkeyFile.2 = tr.pubkey_package ∧
      arts.keyFiles.map Prod.snd = tr.key_packages.map Prod.snd ∧
      ∃ i, i < trials.length ∧ trials[i]? = some (.ok tr) ∧
        ∀ j, j < i → ∀ x, trials[j]? = some x →
          ∃ tr2, x = .ok tr2 ∧ hasEvenParity tr2.pubkey_package = false := by
  unfold generateCommittee at h
  cases hdl : dealLoop trials with
  | success tr =>
    rw [hdl] at h
    cases h
    obtain ⟨hpar, hfirst⟩ := dealLoop_success_spec trials tr hdl
    refine ⟨tr, rfl, rfl, hpar, rfl, ?_, hfirst⟩
    show (tr.key_packages.enum.map fun p => (keyFileName p.1, p.2.2)).map Prod.snd
        = tr.key_packages.map Prod.snd
    rw [List.map_map]
    rw [show (Prod.snd ∘ fun p : Nat × (Identifier × KeyPackage) =>
        (keyFileName p.1, p.2.2)) = Prod.snd ∘ Prod.snd from rfl]
    rw [← List.map_map, List.enum_map_snd]
  | panicked => rw [hdl] at h; cases h
  | runningOut => rw [hdl] at h; cases h

/-- An accepted trial used by several ceremony witnesses. -/
def evenTrial : TrialResult :=
  { key_packages := [(1, ⟨10⟩)], pubkey_package := ⟨[2, 7]⟩ }

/-- A discarded trial (odd-parity pubkey, first serialized byte 3). -/
def oddTrial : TrialResult :=
  { key_packages := [(1, ⟨11⟩)], pubkey_package := ⟨[3, 7]⟩ }

theorem c1_witness :
    hasEvenParity (writeArtifacts 2 evenTrial).pubkeyFile.2 = true := by
  obtain ⟨tr, _, _, hpar, hpk, _, _⟩ :=
    c1_even_parity_same_trial 2 [.ok oddTrial, .ok evenTrial]
      (writeArtifacts 2 evenTrial) (by decide)
  rw [hpk]
  exact hpar

/-- C7: a failure of the underlying key-generation primitive
(`gen_frost_keys` returning an error) aborts `GenerateCommittee` fatally
via `unwrap`: the panic does not depend on any later randomness (never
caught or retried) and no key files are written. -/
theorem c7_crypto_failure_fatal (threshold : Nat)
    (pre rest : List (Except String TrialResult)) (e : String)
    (hpre : ∀ x ∈ pre, ∃ tr, x = .ok tr ∧ hasEvenParity tr.pubkey_package = false) :
    generateCommittee threshold (pre ++ .error e :: rest) = .panicked ∧
    filesWritten (generateCommittee threshold (pre ++ .error e :: rest)) = [] := by
  have hdl := dealLoop_error_panics pre rest e hpre
  unfold generateCommittee
  rw [hdl]
  exact ⟨rfl, rfl⟩

theorem c7_witness :
    generateCommittee 2 ([.ok oddTrial] ++ .error "gen failure" :: [.ok evenTrial])
      = .panicked ∧
    filesWritten (generateCommittee 2
      ([.ok oddTrial] ++ .error "gen failure" :: [.ok evenTrial])) = [] :=
  c7_crypto_failure_fatal 2 [.ok oddTrial] [.ok evenTrial] "gen failure"
    (by
      intro x hx
      rw [List.mem_singleton] at hx
      exact ⟨oddTrial, hx, by decide⟩)

/-- Enumerating a list and projecting the payload's second component. -/
theorem enum_map_snd_snd (l : List (Identifier × KeyPackage)) :
    (l.enum.map fun p => p.2.2) = l.map Prod.snd := by
  rw [show (fun p : Nat × (Identifier × KeyPackage) => p.2.2) =
      Prod.snd ∘ Prod.snd from rfl]
  rw [← List.map_map, List.enum_map_snd]

/-- Enumerating a list and projecting the payload's first component. -/
theorem enum_map_snd_fst (l : List (Identifier × KeyPackage)) :
    (l.enum.map fun p => p.2.1) = l.map Prod.fst := by
  rw [show (fun p : Nat × (Identifier × KeyPackage) => p.2.1) =
      Prod.fst ∘ Prod.snd from rfl]
  rw [← List.map_map, List.enum_map_snd]

/-- C10: when `GenerateCommittee` succeeds for an accepted trial of `num`
key packages with distinct member ids (what `gen_frost_keys(num, t)`
produces), the written artifacts are mutually consistent: exactly one
key file per key package, named `key-0.json` through `key-(num-1).json`
with no duplicates and the package as contents; one public-key package
file; and a `committee-cfg.json` whose threshold is the CLI threshold
argument and whose member list has exactly one entry per key package,
keyed by that package's member id, with pairwise distinct local
addresses. -/
theorem c10_artifacts_consistent (num threshold : Nat)
    (trials : List (Except String TrialResult)) (arts : CommitteeArtifacts)
    (tr : TrialResult) (hdl : dealLoop trials = .success tr)
    (hlen : tr.key_packages.length = num)
    (hids : (tr.key_packages.map Prod.fst).Nodup)
    (h : generateCommittee threshold trials = .ok arts) :
    arts.keyFiles.map Prod.fst = (List.range num).map keyFileName ∧
    (arts.keyFiles.map Prod.fst).Nodup ∧
    arts.keyFiles.map Prod.snd = tr.key_packages.map Prod.snd ∧
    arts.keyFiles.length = num ∧
    arts.pubkeyFile = ("publickey-package.json", tr.pubkey_package) ∧
    arts.cfgFile.1 = "committee-cfg.json" ∧
    arts.cfgFile.2.threshold = threshold ∧
    arts.cfgFile.2.members.length = num ∧
    arts.cfgFile.2.members.map Prod.fst = tr.key_packages.map Prod.fst ∧
    (arts.cfgFile.2.members.map Prod.fst).Nodup ∧
    (arts.cfgFile.2.members.map fun m => m.2.address).Nodup := by
  have harts : arts = writeArtifacts threshold tr := by
    unfold generateCommittee at h
    rw [hdl] at h
    cases h
    rfl
  subst harts
  have hnames : (writeArtifacts threshold tr).keyFiles.map Prod.fst
      = (List.range num).map keyFileName := by
    show (tr.key_packages.enum.map fun p => (keyFileName p.1, p.2.2)).map Prod.fst
        = (List.range num).map keyFileName
    rw [List.map_map]
    rw [show (Prod.fst ∘ fun p : Nat × (Identifier × KeyPackage) =>
        (keyFileName p.1, p.2.2)) = keyFileName ∘ Prod.fst from rfl]
    rw [← List.map_map, List.enum_map_fst, hlen]
  have hcontents : (writeArtifacts threshold tr).keyFiles.map Prod.snd
      = tr.key_packages.map Prod.snd := by
    show (tr.key_packages.enum.map fun p => (keyFileName p.1, p.2.2)).map Prod.snd
        = tr.key_packages.map Prod.snd
    rw [List.map_map]
    rw [show (Prod.snd ∘ fun p : Nat × (Identifier × KeyPackage) =>
        (keyFileName p.1, p.2.2)) = Prod.snd ∘ Prod.snd from rfl]
    rw [← List.map_map, List.enum_map_snd]
  have hmemids : (writeArtifacts threshold tr).cfgFile.2.members.map Prod.fst
      = tr.key_packages.map Prod.fst := by
    show (tr.key_packages.enum.map fun p =>
        (p.2.1, Member.mk (memberAddress p.1))).map Prod.fst
        = tr.key_packages.map Prod.fst
    rw [List.map_map]
    rw [show (Prod.fst ∘ fun p : Nat × (Identifier × KeyPackage) =>
        (p.2.1, Member.mk (memberAddress p.1))) =
        fun p : Nat × (Identifier × KeyPackage) => p.2.1 from rfl]
    exact enum_map_snd_fst tr.key_packages
  have haddrs : ((writeArtifacts threshold tr).cfgFile.2.members.map
      fun m => m.2.address) = (List.range num).map memberAddress := by
    show (tr.key_packages.enum.map fun p =>
        (p.2.1, Member.mk (memberAddress p.1))).map (fun m => m.2.address)
        = (List.range num).map memberAddress
    rw [List.map_map]
    rw [show ((fun m : Identifier × Member => m.2.address) ∘
        fun p : Nat × (Identifier × KeyPackage) =>
        (p.2.1, Member.mk (memberAddress p.1))) =
        memberAddress ∘ Prod.fst from rfl]
    rw [← List.map_map, List.enum_map_fst, hlen]
  refine ⟨hnames, ?_, hcontents, ?_, rfl, rfl, rfl, ?_, hmemids, ?_, ?_⟩
  · rw [hnames]
    exact (List.nodup_range num).map keyFileName_injective
  · have := congrArg List.length hnames
    simpa using this
  · show (tr.key_packages.enum.map fun p =>
        (p.2.1, Member.mk (memberAddress p.1))).length = num
    simpa using hlen
  · rw [hmemids]
    exact hids
  · rw [haddrs]
    exact (List.nodup_range num).map memberAddress_injective

/-- A two-member accepted trial with distinct member ids. -/
def pairTrial : TrialResult :=
  { key_packages := [(1, ⟨5⟩), (2, ⟨6⟩)], pubkey_package := ⟨[2, 9]⟩ }

theorem c10_witness :
    ((writeArtifacts 2 pairTrial).cfgFile.2.members.map fun m => m.2.address).Nodup ∧
    (writeArtifacts 2 pairTrial).cfgFile.2.threshold = 2 := by
  obtain ⟨_, _, _, _, _, _, hthr, _, _, _, haddr⟩ :=
    c10_artifacts_consistent 2 2 [.ok pairTrial] (writeArtifacts 2 pairTrial)
      pairTrial (by decide) (by decide) (by decide) (by decide)
  exact ⟨haddr, hthr⟩

/-- A committee config whose threshold exceeds its member count. -/
def overThresholdCfg : CommitteeConfig :=
  { threshold := 5
  , members := [(1, ⟨"http://127.0.0.1:8890"⟩), (2, ⟨"http://127.0.0.1:8891"⟩)] }

/-- C3 counterexample: the orchestrator's startup check is only
`assert!(committee_cfg.threshold > 0)`; a loaded config with `t = 5`
and `n = 2` members (`t > n`) passes the check and is handed to
`run_server` — it is not rejected with a `ConfigurationError` and it is
used to run the signing service, refuting the claim. -/
theorem c3_counterexample :
    startOrchestrator overThresholdCfg = .runs overThresholdCfg ∧
    overThresholdCfg.members.length < overThresholdCfg.threshold := by
  decide

/-- C3 amended: the only configuration validation in the CLI is the
orchestrator's startup assertion `threshold > 0`: a loaded config runs
the service exactly when its threshold is positive — `t = 0` aborts via
the assertion panic (not a typed `ConfigurationError`), and `t > n` is
not checked at all, so such a config is used to run the signing
service.  (`GenerateCommittee` delegates parameter validation for
`(num, threshold)` to the key-generation library, whose failure aborts
via `unwrap`.) -/
theorem c3_threshold_check_only (cfg : CommitteeConfig) :
    (startOrchestrator cfg = .runs cfg ↔ 0 < cfg.threshold) ∧
    (cfg.threshold = 0 →
      startOrchestrator cfg =
        .panicked "assertion failed: committee_cfg.threshold > 0") := by
  constructor
  · unfold startOrchestrator
    split_ifs with hpos
    · simp [hpos]
    · simp [hpos]
  · intro h0
    unfold startOrchestrator
    rw [if_neg (by omega)]

/-- The empty committee config (threshold zero). -/
def zeroThresholdCfg : CommitteeConfig := { threshold := 0, members := [] }

theorem c3_witness :
    startOrchestrator zeroThresholdCfg =
      .panicked "assertion failed: committee_cfg.threshold > 0" :=
  (c3_threshold_check_only zeroThresholdCfg).2 rfl

/-! ### Session-table lemmas for the member service -/

theorem find?_filter_ne_none (l : List (SessionId × Nonce × Message))
    (sid : SessionId) :
    (l.filter fun e => ¬ e.1 = sid).find? (fun e => e.1 = sid) = none := by
  induction l with
  | nil => rfl
  | cons e rest ih =>
    by_cases he : e.1 = sid
    · simp [List.filter_cons, he, ih]
    · simp [List.filter_cons, List.find?_cons, he, ih]

/-- After removal, the session id no longer resolves. -/
theorem lookupSession_removeSession (st : MemberState) (sid : SessionId) :
    lookupSession (removeSession st sid) sid = none := by
  unfold lookupSession removeSession
  rw [find?_filter_ne_none]
  rfl

/-- A freshly recorded session resolves to its nonce and message. -/
theorem lookupSession_cons_self (st : MemberState) (sid : SessionId)
    (n : Nonce) (msg : Message) :
    lookupSession { st with sessions := (sid, n, msg) :: st.sessions } sid
      = some (n, msg) := by
  unfold lookupSession
  simp [List.find?_cons]

/-- C2 (spec-modelled, §4.2): a successful `sign` for a session uses exactly
the nonce and message recorded at `beginSession`, removes the session
entry in the same step, and leaves a state in which a second `sign` call
for the same session id fails `SessionNotFound` — so the nonce is
consumed by at most one partial-signature computation, over exactly the
message recorded at `beginSession`. -/
theorem c2_nonce_used_once (st : MemberState) (sid : SessionId)
    (agg : List NonceCommitment) (msg : Message) (st2 : MemberState)
    (ps : PartialSignature)
    (h : memberSign st sid agg msg = .ok (st2, ps)) :
    (∃ nonce, lookupSession st sid = some (nonce, msg) ∧
      ps.usedNonce = nonce ∧ ps.overMessage = msg ∧
      ps.keyShare = st.keyShare ∧ ps.aggregated = agg) ∧
    st2 = removeSession st sid ∧
    lookupSession st2 sid = none ∧
    ∀ agg2 msg2, memberSign st2 sid agg2 msg2 = .error .SessionNotFound := by
  unfold memberSign at h
  cases hl : lookupSession st sid with
  | none => rw [hl] at h; cases h
  | some nm =>
    obtain ⟨nonce, recorded⟩ := nm
    rw [hl] at h
    simp only [] at h
    by_cases hm : msg = recorded
    · rw [if_pos hm] at h
      cases h
      subst hm
      refine ⟨⟨nonce, rfl, rfl, rfl, rfl, rfl⟩, rfl,
        lookupSession_removeSession st sid, ?_⟩
      intro agg2 msg2
      unfold memberSign
      rw [lookupSession_removeSession st sid]
    · rw [if_neg hm] at h
      cases h

/-- A member state holding one open session, for the witness. -/
def sampleMemberState : MemberState := { keyShare := 7, sessions := [(1, ⟨42⟩, 99)] }

theorem c2_witness :
    lookupSession (removeSession sampleMemberState 1) 1 = none := by
  obtain ⟨_, _, hnone, _⟩ :=
    c2_nonce_used_once sampleMemberState 1 [] 99 (removeSession sampleMemberState 1)
      { keyShare := 7, usedNonce := ⟨42⟩, overMessage := 99, aggregated := [] } rfl
  exact hnone

/-- C5 (spec-modelled, §4.2): for a session id with no open session, the
first `beginSession` succeeds, records the fresh nonce with the message,
and returns the nonce's public commitment; any second `beginSession`
with the same session id fails `SessionAlreadyUsed`. -/
theorem c5_begin_session_once (st : MemberState) (sid : SessionId)
    (msg : Message) (n1 : Nonce) (h : lookupSession st sid = none) :
    ∃ st2, beginSession st sid msg n1 = .ok (st2, { ofNonce := n1 }) ∧
      lookupSession st2 sid = some (n1, msg) ∧
      ∀ msg2 n2, beginSession st2 sid msg2 n2 = .error .SessionAlreadyUsed := by
  refine ⟨{ st with sessions := (sid, n1, msg) :: st.sessions }, ?_, ?_, ?_⟩
  · unfold beginSession
    rw [h]
  · exact lookupSession_cons_self st sid n1 msg
  · intro msg2 n2
    unfold beginSession
    rw [lookupSession_cons_self st sid n1 msg]

/-- A member state with no open sessions, for the witness. -/
def freshMemberState : MemberState := { keyShare := 3, sessions := [] }

theorem c5_witness :
    ∃ st2, beginSession freshMemberState 1 50 ⟨9⟩ = .ok (st2, { ofNonce := ⟨9⟩ }) ∧
      lookupSession st2 1 = some (⟨9⟩, 50) ∧
      ∀ msg2 n2, beginSession st2 1 msg2 n2 = .error .SessionAlreadyUsed :=
  c5_begin_session_once freshMemberState 1 50 ⟨9⟩ rfl

end ZkBitcoin
